import Mathlib

/-!
Verification of the coordinator orchestration engine of the agents-team
repository: worker registry, skill-based selection, task lifecycle ledger,
performance metrics and result aggregation, shallowly embedded from
`src/agents/lil_Boss_CEO/index.js` and `src/agents/base/Agent.js`.

Machine integers and timestamps are modelled as `Int` (milliseconds),
JavaScript numbers used for rates and means as `Rat`.  The external
completion service is an explicit `Except String String` parameter
(service text or service error), mirroring the spec treatment of
`Complete` as an opaque function.  A worker invocation is a parameter of
the coordinator, mirroring the duck-typed `await agent.processTask(...)`
call site; the repository worker `Agent.processTask` is embedded below and
never yields the throwing case.
-/

namespace Lilcl

/-- Substring test on character lists: `hasSubstrL s sub` is true when
`sub` occurs contiguously inside `s` (the semantics of JavaScript
`String.prototype.includes`, which is true for the empty needle). -/
def hasSubstrL : List Char → List Char → Bool
  | s@(_ :: t), sub => sub.isPrefixOf s || hasSubstrL t sub
  | [], sub => sub.isEmpty

/-- Substring test on strings, haystack first. -/
def hasSubstr (s sub : String) : Bool :=
  hasSubstrL s.toList sub.toList

/-- ASCII lower-casing, the fragment of `String.prototype.toLowerCase`
exercised by the repository (all keywords and skill tags are ASCII). -/
def strLower (s : String) : String :=
  String.mk (s.toList.map Char.toLower)

/-- First-occurrence deduplication, the order-preserving semantics of
`[...new Set(list)]` in `aggregateResults`. -/
def dedupFirstAux (seen : List String) : List String → List String
  | [] => []
  | x :: xs => if x ∈ seen then dedupFirstAux seen xs else x :: dedupFirstAux (x :: seen) xs

/-- `[...new Set(list)]`. -/
def dedupFirst (l : List String) : List String :=
  dedupFirstAux [] l

/-- State of one worker (`Agent.js` constructor): identity, role tag,
skill tags, availability status and the keys of the `currentTasks` map. -/
structure AgentState where
  name : String
  role : String
  specialKnowledge : List String
  status : String
  currentTasks : List String
  deriving Repr, DecidableEq

/-- A fresh worker as built by the `Agent` constructor. -/
def mkAgent (name role : String) (specialKnowledge : List String) : AgentState :=
  { name := name, role := role, specialKnowledge := specialKnowledge
    status := "idle", currentTasks := [] }

/-- Result value returned by `Agent.processTask`. -/
structure AgentResult where
  success : Bool
  result : Option String
  error : Option String
  agent : String
  taskId : String
  deriving Repr, DecidableEq

/-- Insert a key into a `Map`-keyed list: `Map.set` keeps an existing key
in place and appends a new one. -/
def listInsert (l : List String) (k : String) : List String :=
  if l.contains k then l else l ++ [k]

/-- `Agent.processTask(taskId, description, context)` from
`src/agents/base/Agent.js`: sets status busy, records the task, runs the
completion service (the `svc` parameter), and on either outcome resets
status to idle and returns a structured result.  The returned `Except` is
the JavaScript call boundary: `Except.error` would be a thrown exception,
and this function never produces it - every service error is caught and
converted into `success := false`. -/
def processTask (a : AgentState) (taskId : String) (svc : Except String String) :
    AgentState × Except String AgentResult :=
  let a1 := { a with status := "busy", currentTasks := listInsert a.currentTasks taskId }
  match svc with
  | .ok text =>
      ({ a1 with status := "idle" },
       .ok { success := true, result := some text, error := none, agent := a.name, taskId := taskId })
  | .error e =>
      ({ a1 with status := "idle" },
       .ok { success := false, result := none, error := some e, agent := a.name, taskId := taskId })

/-- `CEOAgent.calculateRoleScore(role, taskDescription)`: a fixed
role-to-keyword affinity table worth 15 points. -/
def calculateRoleScore (role : String) (taskDescription : String) : Nat :=
  let taskLower := strLower taskDescription
  if role == "SEO_Specialist" then
    (if hasSubstr taskLower "seo" || hasSubstr taskLower "search" || hasSubstr taskLower "keyword" then 15 else 0)
  else if role == "Brand_Manager" then
    (if hasSubstr taskLower "brand" || hasSubstr taskLower "identity" || hasSubstr taskLower "image" then 15 else 0)
  else if role == "Market_Analyst" then
    (if hasSubstr taskLower "market" || hasSubstr taskLower "analysis" || hasSubstr taskLower "trend" then 15 else 0)
  else if role == "Finance_Analyst" then
    (if hasSubstr taskLower "finance" || hasSubstr taskLower "budget" || hasSubstr taskLower "cost" then 15 else 0)
  else if role == "Product_Manager" then
    (if hasSubstr taskLower "product" || hasSubstr taskLower "feature" || hasSubstr taskLower "development" then 15 else 0)
  else if role == "Marketing_Manager" then
    (if hasSubstr taskLower "marketing" || hasSubstr taskLower "campaign" || hasSubstr taskLower "promotion" then 15 else 0)
  else if role == "Partnership_Manager" then
    (if hasSubstr taskLower "partnership" || hasSubstr taskLower "collaboration" || hasSubstr taskLower "alliance" then 15 else 0)
  else 0

/-- The per-candidate score computed inside `selectBestAgent`: 10 points
per required skill that matches some skill tag case-insensitively, plus
the role score. -/
def agentScore (a : AgentState) (requiredSkills : List String) (taskDescription : String) : Nat :=
  let base := requiredSkills.foldl
    (fun score skill =>
      if a.specialKnowledge.any (fun knowledge => hasSubstr (strLower knowledge) (strLower skill))
      then score + 10 else score) 0
  base + calculateRoleScore a.role taskDescription

/-- One step of stable insertion into a descending-by-score list: the new
element goes after every element of score greater than or equal to its
own.  This realises the result of the (stable, per ECMAScript 2019)
`Array.prototype.sort` with comparator `(a, b) => b.score - a.score`. -/
def insertDesc (x : AgentState × Nat) : List (AgentState × Nat) → List (AgentState × Nat)
  | [] => [x]
  | y :: ys => if y.2 < x.2 then x :: y :: ys else y :: insertDesc x ys

/-- Stable descending sort by score (`scoredAgents.sort((a, b) => b.score - a.score)`). -/
def sortDesc (l : List (AgentState × Nat)) : List (AgentState × Nat) :=
  l.foldl (fun acc x => insertDesc x acc) []

/-- `CEOAgent.selectBestAgent(requiredSkills, taskDescription)`.  The
`Except.error` case is the `TypeError` thrown by
`Array.prototype.reduce` on an empty array with no initial value, which
happens exactly when no agent is idle and the registry is empty; the
`Option` is the possibly-undefined selected agent. -/
def selectBestAgent (teamAgents : List AgentState) (requiredSkills : List String)
    (taskDescription : String) : Except String (Option AgentState) :=
  let availableAgents := teamAgents.filter (fun a => a.status == "idle")
  if availableAgents.isEmpty then
    match teamAgents with
    | [] => .error "Reduce of empty array with no initial value"
    | a :: rest =>
        .ok (some (rest.foldl
          (fun leastBusy agent =>
            if agent.currentTasks.length < leastBusy.currentTasks.length then agent else leastBusy) a))
  else
    let scoredAgents := availableAgents.map (fun a => (a, agentScore a requiredSkills taskDescription))
    let sorted := sortDesc scoredAgents
    .ok (match sorted.head? with
         | some p => some p.1
         | none => availableAgents.head?)

/-- A task record as created and mutated by `assignTask`.  Timestamps are
milliseconds; `completedAt`, `result` and `error` are absent until set. -/
structure Task where
  id : String
  description : String
  priority : String
  requiredSkills : List String
  assignedAgent : String
  assignedAt : Int
  status : String
  progress : Nat
  completedAt : Option Int
  result : Option AgentResult
  error : Option String
  deriving Repr, DecidableEq

/-- Coordinator state (`CEOAgent` constructor): the worker registry in
insertion order, the active and historical task ledgers, and the
performance metrics.  The coordinator-as-agent transient fields (its own
`status` and `currentTasks`), which no ledger query observes, are not
tracked. -/
structure CEOState where
  teamAgents : List AgentState
  activeTasks : List Task
  taskHistory : List Task
  tasksCompleted : Nat
  tasksAssigned : Nat
  averageCompletionTime : Rat
  successRate : Rat
  deriving Repr, DecidableEq

/-- The freshly constructed coordinator. -/
def initCEO : CEOState :=
  { teamAgents := [], activeTasks := [], taskHistory := []
    tasksCompleted := 0, tasksAssigned := 0
    averageCompletionTime := 0, successRate := 0 }

/-- `Map.set` on the id-keyed active-task map: an existing key keeps its
position, a new key is appended. -/
def taskMapSet (m : List Task) (t : Task) : List Task :=
  if m.any (fun u => u.id == t.id) then m.map (fun u => if u.id == t.id then t else u)
  else m ++ [t]

/-- `Map.delete` on the id-keyed active-task map. -/
def taskMapDelete (m : List Task) (id : String) : List Task :=
  m.filter (fun u => !(u.id == id))

/-- `Map.set` on the name-keyed registry. -/
def agentMapSet (m : List AgentState) (a : AgentState) : List AgentState :=
  if m.any (fun u => u.name == a.name) then m.map (fun u => if u.name == a.name then a else u)
  else m ++ [a]

/-- `CEOAgent.registerTeamAgent(agent)`; the mutual collaborator
registration touches only the agents' collaborator maps, which nothing
here observes. -/
def registerTeamAgent (st : CEOState) (agent : AgentState) : CEOState :=
  { st with teamAgents := agentMapSet st.teamAgents agent }

/-- `CEOAgent.calculateDeadline(priority)`: hour offsets keyed by
priority, with `|| 24` supplying the fallback for any unknown key. -/
def calculateDeadline (now : Int) (priority : String) : Int :=
  let deadlineHours : Int :=
    if priority == "high" then 2
    else if priority == "medium" then 24
    else if priority == "low" then 72
    else 24
  now + deadlineHours * 60 * 60 * 1000

/-- The context object passed to the worker call inside `assignTask`. -/
structure TaskContext where
  priority : String
  assignedBy : String
  deadline : Int
  deriving Repr, DecidableEq

/-- Total milliseconds accumulated by the reduce over completed tasks in
`updatePerformanceMetrics`. -/
def completedTotalTime (l : List Task) : Int :=
  l.foldl (fun sum t => sum + ((t.completedAt.getD 0) - t.assignedAt)) 0

/-- `CEOAgent.updatePerformanceMetrics()`: success rate as a percentage of
history, and mean completion time in minutes, the latter only rewritten
when at least one completed task exists. -/
def updatePerformanceMetrics (st : CEOState) : CEOState :=
  let completedTasks := st.taskHistory.filter (fun t => t.status == "completed")
  { st with
    successRate :=
      if st.taskHistory.length > 0 then
        ((completedTasks.length : Rat) / (st.taskHistory.length : Rat)) * 100
      else 0
    averageCompletionTime :=
      if completedTasks.length > 0 then
        ((completedTotalTime completedTasks : Rat) / (completedTasks.length : Rat)) / (1000 * 60)
      else st.averageCompletionTime }

/-- The structured value returned by `assignTask`. -/
structure SubmitResult where
  success : Bool
  taskId : Option String
  assignedAgent : Option String
  result : Option String
  error : Option String
  deriving Repr, DecidableEq

/-- The shape of a worker invocation at the `await
assignedAgent.processTask(taskId, description, context)` call site: given
the selected agent's state, the task id, the description and the context,
it yields the agent's post-call state and either a returned result or a
thrown exception. -/
def WorkerCall : Type :=
  AgentState → String → String → TaskContext → AgentState × Except String AgentResult

/-- The repository worker: `Agent.processTask` driven by completion
service outcome `svc`.  It never yields the thrown case. -/
def repoWorker (svc : Except String String) : WorkerCall :=
  fun a taskId _ _ => processTask a taskId svc

/-- `CEOAgent.assignTask(taskDescription, priority, requiredSkills)`.
`taskId` stands for the generated `task-(Date.now())-(random)` string;
`tAssign`, `tDeadline` and `tComplete` are the successive `new Date()` /
`Date.now()` readings.  The returned `Except.error` is an exception
escaping the method (possible only from `selectBestAgent`, whose call
sits outside the try block); the state component is the coordinator
state observable afterwards in either case. -/
def assignTask (st : CEOState) (taskId : String) (tAssign tDeadline tComplete : Int)
    (call : WorkerCall) (taskDescription priority : String) (requiredSkills : List String) :
    CEOState × Except String SubmitResult :=
  match selectBestAgent st.teamAgents requiredSkills taskDescription with
  | .error e => (st, .error e)
  | .ok none =>
      (st, .ok { success := false, taskId := some taskId, assignedAgent := none
                 result := none, error := some "No suitable agent available" })
  | .ok (some assignedAgent) =>
      let task : Task :=
        { id := taskId, description := taskDescription, priority := priority
          requiredSkills := requiredSkills, assignedAgent := assignedAgent.name
          assignedAt := tAssign, status := "assigned", progress := 0
          completedAt := none, result := none, error := none }
      let st1 := { st with
        activeTasks := taskMapSet st.activeTasks task
        tasksAssigned := st.tasksAssigned + 1 }
      let ctx : TaskContext :=
        { priority := priority, assignedBy := "lil_Boss_CEO"
          deadline := calculateDeadline tDeadline priority }
      match call assignedAgent taskId taskDescription ctx with
      | (agent1, .ok result) =>
          let task1 := { task with
            status := if result.success then "completed" else "failed"
            completedAt := some tComplete, result := some result, progress := 100 }
          let st2 := { st1 with
            teamAgents := agentMapSet st1.teamAgents agent1
            tasksCompleted := st1.tasksCompleted + (if result.success then 1 else 0)
            taskHistory := st1.taskHistory ++ [task1]
            activeTasks := taskMapDelete st1.activeTasks taskId }
          (updatePerformanceMetrics st2,
           .ok { success := result.success, taskId := some taskId
                 assignedAgent := some assignedAgent.name
                 result := result.result, error := result.error })
      | (agent1, .error emsg) =>
          let task1 := { task with
            status := "failed", error := some emsg, completedAt := some tComplete }
          let st2 := { st1 with
            teamAgents := agentMapSet st1.teamAgents agent1
            taskHistory := st1.taskHistory ++ [task1]
            activeTasks := taskMapDelete st1.activeTasks taskId }
          (st2, .ok { success := false, taskId := some taskId, assignedAgent := none
                      result := none, error := some emsg })

/-- Result shape of `getTaskStatus`.  In the source the task fields are
spread into the returned object after the literal `status` field, so the
observable `status` is the task record's own status; the record itself is
carried here as `task`. -/
structure StatusResult where
  found : Bool
  status : Option String
  task : Option Task
  error : Option String
  deriving Repr, DecidableEq

/-- `CEOAgent.getTaskStatus(taskId)`: active map first, then first match
in history. -/
def getTaskStatus (st : CEOState) (taskId : String) : StatusResult :=
  match st.activeTasks.find? (fun t => t.id == taskId) with
  | some t => { found := true, status := some t.status, task := some t, error := none }
  | none =>
      match st.taskHistory.find? (fun t => t.id == taskId) with
      | some t => { found := true, status := some t.status, task := some t, error := none }
      | none => { found := false, status := none, task := none, error := some "Task not found" }

/-- The truthiness test `task.status === 'completed' && task.result?.success`
applied to a `getTaskStatus` result inside `aggregateResults`. -/
def statusSuccessful (r : StatusResult) : Bool :=
  r.status == some "completed" &&
    (match r.task with
     | some t => (match t.result with | some ar => ar.success | none => false)
     | none => false)

/-- The `tasks` list of `aggregateResults`: statuses of the requested ids,
keeping only the found ones. -/
def aggFoundTasks (st : CEOState) (taskIds : List String) : List StatusResult :=
  (taskIds.map (fun id => getTaskStatus st id)).filter (fun r => r.found)

/-- The `completedTasks` list of `aggregateResults`. -/
def aggCompleted (st : CEOState) (taskIds : List String) : List StatusResult :=
  (aggFoundTasks st taskIds).filter statusSuccessful

/-- Result shape of `aggregateResults`. -/
structure AggResult where
  success : Bool
  aggregated_result : Option String
  source_tasks : List String
  agents_involved : List String
  aggregation_type : Option String
  error : Option String
  deriving Repr, DecidableEq

/-- A CEO-shaped agent state for the coordinator's own `processTask`
call inside `aggregateResults` (only the fields of the returned
`AgentResult` matter to the caller). -/
def ceoSelf : AgentState :=
  mkAgent "lil_Boss_CEO" "CEO"
    ["Strategic Planning", "Team Coordination", "Task Delegation",
     "Performance Monitoring", "Executive Decision Making", "Resource Allocation"]

/-- `CEOAgent.aggregateResults(taskIds, aggregationType)`.  `svc` is the
completion-service outcome of the single synthesis call and `aggTaskId`
the generated `aggregation-(Date.now())` id.  The final `Nat` counts
completion-service invocations, making the no-call claim expressible;
the early-return path performs none.  The coordinator's own transient
agent bookkeeping mutated by `processTask` is not part of `CEOState`, so
the ledger state is returned unchanged, as in the source. -/
def aggregateResults (st : CEOState) (taskIds : List String) (aggregationType : String)
    (svc : Except String String) (aggTaskId : String) : CEOState × AggResult × Nat :=
  let completedTasks := aggCompleted st taskIds
  if completedTasks.length == 0 then
    (st, { success := false, aggregated_result := none, source_tasks := []
           agents_involved := [], aggregation_type := none
           error := some "No completed tasks found for aggregation" }, 0)
  else
    match processTask ceoSelf aggTaskId svc with
    | (_, .ok ar) =>
        (st, { success := true, aggregated_result := ar.result, source_tasks := taskIds
               agents_involved :=
                 dedupFirst (completedTasks.map (fun r => ((r.task.map Task.assignedAgent).getD "")))
               aggregation_type := some aggregationType, error := none }, 1)
    | (_, .error e) =>
        (st, { success := false, aggregated_result := none, source_tasks := []
               agents_involved := [], aggregation_type := none, error := some e }, 1)

/-- `Math.round` on a rational: floor of the value plus one half. -/
def jsRound (q : Rat) : Int :=
  ⌊q + 1 / 2⌋

/-- `CEOAgent.calculateSystemHealth()`: half the weight on the idle
fraction of the registry, half on the capped success rate. -/
def calculateSystemHealth (st : CEOState) : Int :=
  let idleAgents := (st.teamAgents.filter (fun a => a.status == "idle")).length
  let totalAgents := st.teamAgents.length
  let availabilityScore : Rat :=
    if totalAgents > 0 then ((idleAgents : Rat) / (totalAgents : Rat)) * 50 else 0
  let performanceScore : Rat := min (st.successRate / 2) 50
  jsRound (availabilityScore + performanceScore)

/-- One externally triggered coordinator operation, for reasoning about
arbitrary continuations of a run. -/
inductive Op where
  | register (a : AgentState)
  | submit (taskId : String) (tAssign tDeadline tComplete : Int) (call : WorkerCall)
      (taskDescription priority : String) (requiredSkills : List String)
  | aggregate (taskIds : List String) (aggregationType : String)
      (svc : Except String String) (aggTaskId : String)

/-- State transition of one operation. -/
def step (st : CEOState) : Op → CEOState
  | .register a => registerTeamAgent st a
  | .submit id t0 t1 t2 call d p sk => (assignTask st id t0 t1 t2 call d p sk).1
  | .aggregate ids k svc aid => (aggregateResults st ids k svc aid).1

/-- Run a list of operations. -/
def run (st : CEOState) (ops : List Op) : CEOState :=
  ops.foldl step st

/-- An operation does not submit under the given task id. -/
def opFresh (id : String) : Op → Prop
  | .submit id' _ _ _ _ _ _ _ => id' ≠ id
  | _ => True

/-- Membership of an id in the active ledger. -/
def activeHas (st : CEOState) (id : String) : Bool :=
  st.activeTasks.any (fun t => t.id == id)

/-- Membership of an id in the history ledger. -/
def historyHas (st : CEOState) (id : String) : Bool :=
  st.taskHistory.any (fun t => t.id == id)

/-! ### Selection machinery: the head of the stable descending sort is the
first candidate attaining the maximal score. -/

/-- Evolution of the head of the accumulator under one stable insertion. -/
def hbStep (o : Option (AgentState × Nat)) (x : AgentState × Nat) : Option (AgentState × Nat) :=
  match o with
  | none => some x
  | some y => some (if y.2 < x.2 then x else y)

theorem head?_insertDesc (x : AgentState × Nat) (l : List (AgentState × Nat)) :
    (insertDesc x l).head? = hbStep l.head? x := by
  cases l with
  | nil => rfl
  | cons y ys =>
      by_cases h : y.2 < x.2
      · simp [insertDesc, hbStep, h]
      · simp [insertDesc, hbStep, h]

theorem head?_foldl_insertDesc (l : List (AgentState × Nat)) :
    ∀ acc : List (AgentState × Nat),
      ((l.foldl (fun acc x => insertDesc x acc) acc).head? = l.foldl hbStep acc.head?) := by
  induction l with
  | nil => intro acc; rfl
  | cons x xs ih =>
      intro acc
      simp only [List.foldl_cons]
      rw [ih (insertDesc x acc), head?_insertDesc]

/-- The first-encountered maximal element under running comparison, the
observable selected by `sortedAgents[0]` after the stable sort. -/
def pickBest (f : AgentState → Nat) (c : AgentState) : List AgentState → AgentState
  | [] => c
  | x :: xs => pickBest f (if f c < f x then x else c) xs

theorem foldl_hbStep_map (f : AgentState → Nat) :
    ∀ (xs : List AgentState) (c : AgentState),
      ((xs.map (fun a => (a, f a))).foldl hbStep (some (c, f c)))
        = some (pickBest f c xs, f (pickBest f c xs)) := by
  intro xs
  induction xs with
  | nil => intro c; rfl
  | cons x xs ih =>
      intro c
      simp only [List.map_cons, List.foldl_cons, hbStep, pickBest]
      have hsw : (if f c < f x then ((x, f x) : AgentState × Nat) else (c, f c))
          = (if f c < f x then x else c, f (if f c < f x then x else c)) := by
        split <;> rfl
      rw [hsw, ih]

theorem sortDesc_head_of_map (f : AgentState → Nat) (a : AgentState) (as : List AgentState) :
    (sortDesc ((a :: as).map (fun b => (b, f b)))).head?
      = some (pickBest f a as, f (pickBest f a as)) := by
  rw [sortDesc, head?_foldl_insertDesc]
  simp only [List.map_cons, List.foldl_cons, hbStep, List.head?]
  exact foldl_hbStep_map f as a

/-- When some agent is idle, `selectBestAgent` returns the first
candidate of maximal score among the idle ones. -/
theorem selectBestAgent_eq_pickBest (teams : List AgentState) (sk : List String) (d : String)
    (a : AgentState) (as : List AgentState)
    (hav : teams.filter (fun x => x.status == "idle") = a :: as) :
    selectBestAgent teams sk d
      = .ok (some (pickBest (fun b => agentScore b sk d) a as)) := by
  unfold selectBestAgent
  rw [hav]
  simp only [List.isEmpty_cons, Bool.false_eq_true, if_false]
  rw [sortDesc_head_of_map (fun b => agentScore b sk d) a as]

theorem pickBest_max (f : AgentState → Nat) :
    ∀ (xs : List AgentState) (c : AgentState),
      f c ≤ f (pickBest f c xs) ∧ ∀ b ∈ xs, f b ≤ f (pickBest f c xs) := by
  intro xs
  induction xs with
  | nil => intro c; simp [pickBest]
  | cons x xs ih =>
      intro c
      simp only [pickBest]
      obtain ⟨h1, h2⟩ := ih (if f c < f x then x else c)
      refine ⟨?_, ?_⟩
      · exact le_trans (by split <;> omega) h1
      · intro b hb
        rcases List.mem_cons.mp hb with rfl | hb
        · exact le_trans (by split <;> omega) h1
        · exact h2 b hb

theorem pickBest_mem (f : AgentState → Nat) :
    ∀ (xs : List AgentState) (c : AgentState), pickBest f c xs = c ∨ pickBest f c xs ∈ xs := by
  intro xs
  induction xs with
  | nil => intro c; simp [pickBest]
  | cons x xs ih =>
      intro c
      simp only [pickBest]
      rcases ih (if f c < f x then x else c) with h | h
      · rw [h]
        split
        · right; exact List.mem_cons_self x xs
        · left; rfl
      · right; exact List.mem_cons_of_mem x h

/-- Stability: the selected agent is the first list element whose score
equals the selected score. -/
theorem pickBest_find? (f : AgentState → Nat) :
    ∀ (xs : List AgentState) (c : AgentState),
      (c :: xs).find? (fun b => f b == f (pickBest f c xs)) = some (pickBest f c xs) := by
  intro xs
  induction xs with
  | nil =>
      intro c
      simp [pickBest, List.find?]
  | cons x xs ih =>
      intro c
      simp only [pickBest]
      by_cases hcx : f c < f x
      · simp only [if_pos hcx]
        have hxr := (pickBest_max f xs x).1
        have hcr : f c < f (pickBest f x xs) := lt_of_lt_of_le hcx hxr
        have hpc : (f c == f (pickBest f x xs)) = false := by
          simp [Nat.ne_of_lt hcr]
        rw [List.find?]
        rw [hpc]
        exact ih x
      · simp only [if_neg hcx]
        have ihc := ih c
        by_cases hpc : (f c == f (pickBest f c xs)) = true
        · have hfc : List.find? (fun b => f b == f (pickBest f c xs)) (c :: xs) = some c := by
            rw [List.find?, hpc]
          have : pickBest f c xs = c := by
            rw [ihc] at hfc
            exact (Option.some.injEq _ _).mp hfc
          rw [List.find?, hpc, this]
        · have hpc' : (f c == f (pickBest f c xs)) = false := by
            simpa using hpc
          have hcr : f c < f (pickBest f c xs) := by
            have hle := (pickBest_max f xs c).1
            have hne : f c ≠ f (pickBest f c xs) := by
              intro h
              rw [h] at hpc'
              simp at hpc'
            omega
          have hxr : f x < f (pickBest f c xs) := by
            have hxc : f x ≤ f c := Nat.le_of_not_lt hcx
            omega
          have hpx : (f x == f (pickBest f c xs)) = false := by
            simp [Nat.ne_of_lt hxr]
          rw [List.find?, hpc', List.find?, hpx]
          rw [List.find?, hpc'] at ihc
          exact ihc

/-- `selectBestAgent` never evaluates to a defined-but-absent agent: it
either throws (empty registry, nobody idle) or produces an agent. -/
theorem selectBestAgent_ne_ok_none (teams : List AgentState) (sk : List String) (d : String) :
    selectBestAgent teams sk d ≠ .ok none := by
  rcases hav : teams.filter (fun x => x.status == "idle") with _ | ⟨a, as⟩
  · unfold selectBestAgent
    rw [hav]
    simp only [List.isEmpty_nil, if_true]
    cases teams with
    | nil => simp
    | cons t ts => simp
  · rw [selectBestAgent_eq_pickBest teams sk d a as hav]
    simp

/-! ### The scoring formula as the specification words it, for the
refinement part of the selection claim. -/

/-- Modelled from the claim wording: the fixed keywords associated with a
role (roles outside the table have none). -/
def roleKeywords (role : String) : List String :=
  if role == "SEO_Specialist" then ["seo", "search", "keyword"]
  else if role == "Brand_Manager" then ["brand", "identity", "image"]
  else if role == "Market_Analyst" then ["market", "analysis", "trend"]
  else if role == "Finance_Analyst" then ["finance", "budget", "cost"]
  else if role == "Product_Manager" then ["product", "feature", "development"]
  else if role == "Marketing_Manager" then ["marketing", "campaign", "promotion"]
  else if role == "Partnership_Manager" then ["partnership", "collaboration", "alliance"]
  else []

/-- Spec-side skill hits: the number of required-skill strings that are a
case-insensitive substring of at least one of the worker's skill tags. -/
def specSkillHits (a : AgentState) (requiredSkills : List String) : Nat :=
  (requiredSkills.filter
    (fun s => a.specialKnowledge.any (fun k => hasSubstr (strLower k) (strLower s)))).length

/-- Spec-side score: ten points per skill hit plus fifteen exactly when
the lowercased description contains one of the role's keywords. -/
def specScore (a : AgentState) (requiredSkills : List String) (taskDescription : String) : Nat :=
  10 * specSkillHits a requiredSkills +
    (if (roleKeywords a.role).any (fun kw => hasSubstr (strLower taskDescription) kw) then 15 else 0)

theorem foldl_ten (p : String → Bool) :
    ∀ (l : List String) (n : Nat),
      l.foldl (fun s x => if p x then s + 10 else s) n = n + 10 * (l.filter p).length := by
  intro l
  induction l with
  | nil => intro n; simp
  | cons x xs ih =>
      intro n
      by_cases hx : p x = true
      · simp only [List.foldl_cons, hx, if_true, List.filter_cons, ih]
        simp [hx]
        omega
      · simp only [List.foldl_cons, hx, if_false, List.filter_cons, ih]
        simp [hx]

theorem calculateRoleScore_eq_keywords (role d : String) :
    calculateRoleScore role d
      = (if (roleKeywords role).any (fun kw => hasSubstr (strLower d) kw) then 15 else 0) := by
  unfold calculateRoleScore roleKeywords
  cases h1 : (role == "SEO_Specialist") <;>
  cases h2 : (role == "Brand_Manager") <;>
  cases h3 : (role == "Market_Analyst") <;>
  cases h4 : (role == "Finance_Analyst") <;>
  cases h5 : (role == "Product_Manager") <;>
  cases h6 : (role == "Marketing_Manager") <;>
  cases h7 : (role == "Partnership_Manager") <;>
  simp [h1, h2, h3, h4, h5, h6, h7, List.any_cons, List.any_nil, Bool.or_assoc]

/-- The score computed inside `selectBestAgent` coincides with the score
the specification describes. -/
theorem agentScore_eq_specScore (a : AgentState) (sk : List String) (d : String) :
    agentScore a sk d = specScore a sk d := by
  simp only [agentScore, specScore, specSkillHits, calculateRoleScore_eq_keywords, foldl_ten]
  omega

/-- C6 (confirmed).  For every registry whose idle-candidate list is
non-empty, every required-skills list and every description,
`selectBestAgent` returns an idle candidate; every candidate's score is
ten points per required skill matching a skill tag case-insensitively
plus fifteen exactly when the lowercased description contains a keyword
of the candidate's role; and the returned candidate's score is maximal
among the candidates. -/
theorem selection_score_formula_and_max (teams : List AgentState) (sk : List String) (d : String)
    (hne : teams.filter (fun a => a.status == "idle") ≠ []) :
    ∃ best,
      selectBestAgent teams sk d = .ok (some best) ∧
      best ∈ teams.filter (fun a => a.status == "idle") ∧
      (∀ b ∈ teams.filter (fun a => a.status == "idle"), agentScore b sk d = specScore b sk d) ∧
      (∀ b ∈ teams.filter (fun a => a.status == "idle"),
        agentScore b sk d ≤ agentScore best sk d) := by
  rcases hav : teams.filter (fun a => a.status == "idle") with _ | ⟨a, as⟩
  · exact absurd hav hne
  · refine ⟨pickBest (fun b => agentScore b sk d) a as, ?_, ?_, ?_, ?_⟩
    · exact selectBestAgent_eq_pickBest teams sk d a as hav
    · rcases pickBest_mem (fun b => agentScore b sk d) as a with h | h
      · rw [h, hav]; exact List.mem_cons_self a as
      · rw [hav]; exact List.mem_cons_of_mem a h
    · intro b _; exact agentScore_eq_specScore b sk d
    · intro b hb
      rw [hav] at hb
      obtain ⟨h1, h2⟩ := pickBest_max (fun b => agentScore b sk d) as a
      rcases List.mem_cons.mp hb with rfl | hb
      · exact h1
      · exact h2 b hb

/-- C7 (confirmed).  Selection is a pure function of the registry
snapshot and the inputs, hence deterministic; moreover, because the
descending sort is stable, the returned worker is the first candidate in
registration order whose score equals the maximal score. -/
theorem selection_deterministic_first_max (teams : List AgentState) (sk : List String) (d : String)
    (hne : teams.filter (fun a => a.status == "idle") ≠ []) :
    ∃ best,
      selectBestAgent teams sk d = .ok (some best) ∧
      (∀ b ∈ teams.filter (fun a => a.status == "idle"),
        agentScore b sk d ≤ agentScore best sk d) ∧
      (teams.filter (fun a => a.status == "idle")).find?
          (fun b => agentScore b sk d == agentScore best sk d) = some best := by
  rcases hav : teams.filter (fun a => a.status == "idle") with _ | ⟨a, as⟩
  · exact absurd hav hne
  · refine ⟨pickBest (fun b => agentScore b sk d) a as, ?_, ?_, ?_⟩
    · exact selectBestAgent_eq_pickBest teams sk d a as hav
    · intro b hb
      rw [hav] at hb
      obtain ⟨h1, h2⟩ := pickBest_max (fun b => agentScore b sk d) as a
      rcases List.mem_cons.mp hb with rfl | hb
      · exact h1
      · exact h2 b hb
    · rw [hav]
      exact pickBest_find? (fun b => agentScore b sk d) as a

/-! ### Projections of the metrics recomputation. -/

theorem upm_taskHistory (st : CEOState) :
    (updatePerformanceMetrics st).taskHistory = st.taskHistory := rfl

theorem upm_activeTasks (st : CEOState) :
    (updatePerformanceMetrics st).activeTasks = st.activeTasks := rfl

theorem upm_teamAgents (st : CEOState) :
    (updatePerformanceMetrics st).teamAgents = st.teamAgents := rfl

theorem upm_tasksAssigned (st : CEOState) :
    (updatePerformanceMetrics st).tasksAssigned = st.tasksAssigned := rfl

/-! ### Concrete demonstration data used by witnesses and counterexamples. -/

/-- The SEO specialist worker from `lil_SEO_Specialist/index.js` (first
three skill tags). -/
def demoSEO : AgentState :=
  mkAgent "lil_SEO_Specialist" "SEO_Specialist"
    ["Search Engine Optimization", "Keyword Research", "Technical SEO"]

/-- An untagged brand worker. -/
def demoBrand : AgentState :=
  mkAgent "lil_Brand_Manager" "Brand_Manager" []

/-- An untagged market worker. -/
def demoMarket : AgentState :=
  mkAgent "lil_Market_Analyst" "Market_Analyst" []

/-- A registry holding the three demonstration workers. -/
def demoCEO : CEOState :=
  { initCEO with teamAgents := [demoSEO, demoBrand, demoMarket] }

/-- A registry listing the brand worker first, for tie-break scenarios. -/
def demoCEO2 : CEOState :=
  { initCEO with teamAgents := [demoBrand, demoSEO] }

/-- Witness for the selection-score claim, on the scenario of the
specification: required skill "SEO" matches the tag "Technical SEO"
case-insensitively (ten points) and the description contains "seo"
(fifteen points), so the SEO worker wins with score twenty-five. -/
theorem selection_score_formula_and_max_witness :
    (∃ best,
      selectBestAgent demoCEO.teamAgents ["SEO"] "Analyze SEO opportunities for an e-commerce site"
          = .ok (some best) ∧
      best ∈ demoCEO.teamAgents.filter (fun a => a.status == "idle") ∧
      (∀ b ∈ demoCEO.teamAgents.filter (fun a => a.status == "idle"),
        agentScore b ["SEO"] "Analyze SEO opportunities for an e-commerce site"
          = specScore b ["SEO"] "Analyze SEO opportunities for an e-commerce site") ∧
      (∀ b ∈ demoCEO.teamAgents.filter (fun a => a.status == "idle"),
        agentScore b ["SEO"] "Analyze SEO opportunities for an e-commerce site"
          ≤ agentScore best ["SEO"] "Analyze SEO opportunities for an e-commerce site")) ∧
    selectBestAgent demoCEO.teamAgents ["SEO"] "Analyze SEO opportunities for an e-commerce site"
        = .ok (some demoSEO) ∧
    agentScore demoSEO ["SEO"] "Analyze SEO opportunities for an e-commerce site" = 25 :=
  ⟨selection_score_formula_and_max demoCEO.teamAgents ["SEO"]
      "Analyze SEO opportunities for an e-commerce site" (by decide),
   by rfl, by decide⟩

/-- Witness for the determinism and stable-tie claim: two workers score
zero on a neutral description and the first-registered one is selected. -/
theorem selection_deterministic_first_max_witness :
    (∃ best,
      selectBestAgent demoCEO2.teamAgents [] "Write the weekly update"
          = .ok (some best) ∧
      (∀ b ∈ demoCEO2.teamAgents.filter (fun a => a.status == "idle"),
        agentScore b [] "Write the weekly update" ≤ agentScore best [] "Write the weekly update") ∧
      (demoCEO2.teamAgents.filter (fun a => a.status == "idle")).find?
          (fun b => agentScore b [] "Write the weekly update"
            == agentScore best [] "Write the weekly update") = some best) ∧
    selectBestAgent demoCEO2.teamAgents [] "Write the weekly update" = .ok (some demoBrand) :=
  ⟨selection_deterministic_first_max demoCEO2.teamAgents [] "Write the weekly update" (by decide),
   by rfl⟩

/-! ### Claims about priority validation and the empty-registry throw. -/

/-- C3 (code_bug).  The specification requires every Submit call to
return a structured result and never throw; with an empty registry the
`reduce` with no initial value inside `selectBestAgent` throws a
`TypeError`, and the call to `selectBestAgent` sits outside the
try/catch of `assignTask`, so the exception escapes the orchestration
boundary; the in-method no-suitable-agent guard never fires. -/
theorem submit_throws_on_empty_registry :
    (assignTask initCEO "task-1" 0 0 0 (repoWorker (.ok "text")) "Analyze the market" "high" []).2
      = .error "Reduce of empty array with no initial value" := by
  rfl

/-- C2 (corrected, amended claim).  When selection can find no worker -
possible only with an empty registry - `assignTask` does not return a
`NoSuitableWorker` failure result: the thrown selection error escapes,
and the ledger is left entirely unchanged.  (The unreachable in-method
failure branch would moreover carry the generated task id.) -/
theorem empty_registry_submit_throws_unchanged (st : CEOState) (id : String)
    (t0 t1 t2 : Int) (call : WorkerCall) (d p : String) (sk : List String)
    (h : st.teamAgents = []) :
    assignTask st id t0 t1 t2 call d p sk
      = (st, .error "Reduce of empty array with no initial value") := by
  have hsel : selectBestAgent st.teamAgents sk d
      = .error "Reduce of empty array with no initial value" := by
    rw [h]; rfl
  simp only [assignTask, hsel]

theorem empty_registry_submit_throws_unchanged_witness :
    assignTask initCEO "task-2" 0 0 0 (repoWorker (.ok "t")) "Plan the quarter" "medium" []
      = (initCEO, .error "Reduce of empty array with no initial value") :=
  empty_registry_submit_throws_unchanged initCEO "task-2" 0 0 0
    (repoWorker (.ok "t")) "Plan the quarter" "medium" [] rfl

/-- Counterexample to C2 as stated: at a concrete no-suitable-worker
input the call yields a thrown error, not a returned failure result
carrying the error; the ledgers stay empty. -/
theorem no_worker_failure_result_cex :
    (assignTask initCEO "task-3" 0 0 0 (repoWorker (.ok "t")) "Plan the campaign" "low" []).2
        = .error "Reduce of empty array with no initial value"
    ∧ (assignTask initCEO "task-3" 0 0 0 (repoWorker (.ok "t")) "Plan the campaign" "low" []).1.activeTasks
        = []
    ∧ (assignTask initCEO "task-3" 0 0 0 (repoWorker (.ok "t")) "Plan the campaign" "low" []).1.taskHistory
        = [] :=
  ⟨rfl, rfl, rfl⟩

/-- Counterexample to C1 as stated: submitting with priority "urgent"
is not rejected with `InvalidPriority` - the call succeeds, returns the
task id, invokes the worker (its text is in the result) and writes the
ledger. -/
theorem invalid_priority_still_creates_task_cex :
    (assignTask demoCEO2 "task-7" 0 0 5 (repoWorker (.ok "analysis")) "Review the budget" "urgent" []).2
        = .ok { success := true, taskId := some "task-7"
                assignedAgent := some "lil_Brand_Manager"
                result := some "analysis", error := none }
    ∧ historyHas
        (assignTask demoCEO2 "task-7" 0 0 5 (repoWorker (.ok "analysis")) "Review the budget" "urgent" []).1
        "task-7" = true :=
  ⟨by rfl, by decide⟩

/-- C1 (corrected, amended claim).  `assignTask` performs no priority
validation: for a priority outside the recognized set the task is still
created, assigned and executed exactly as with a valid one - the call
returns the task id with the worker's result, the history ledger gains
the record, and the assigned counter advances. -/
theorem invalid_priority_no_validation (st : CEOState) (id : String) (t0 t1 t2 : Int)
    (text d p : String) (sk : List String) (agent : AgentState)
    (hp1 : p ≠ "high") (hp2 : p ≠ "medium") (hp3 : p ≠ "low")
    (hsel : selectBestAgent st.teamAgents sk d = .ok (some agent)) :
    (assignTask st id t0 t1 t2 (repoWorker (.ok text)) d p sk).2
        = .ok { success := true, taskId := some id, assignedAgent := some agent.name
                result := some text, error := none }
    ∧ historyHas (assignTask st id t0 t1 t2 (repoWorker (.ok text)) d p sk).1 id = true
    ∧ (assignTask st id t0 t1 t2 (repoWorker (.ok text)) d p sk).1.tasksAssigned
        = st.tasksAssigned + 1 := by
  simp only [assignTask, hsel, repoWorker, processTask]
  refine ⟨by trivial, ?_, by trivial⟩
  simp only [historyHas, upm_taskHistory, List.any_append, List.any_cons, List.any_nil,
    beq_self_eq_true, Bool.or_true, Bool.true_or, Bool.or_false]

theorem invalid_priority_no_validation_witness :
    (assignTask demoCEO2 "task-8" 0 0 5 (repoWorker (.ok "report")) "Draft the notes" "urgent" []).2
        = .ok { success := true, taskId := some "task-8"
                assignedAgent := some (demoBrand.name)
                result := some "report", error := none }
    ∧ historyHas
        (assignTask demoCEO2 "task-8" 0 0 5 (repoWorker (.ok "report")) "Draft the notes" "urgent" []).1
        "task-8" = true
    ∧ (assignTask demoCEO2 "task-8" 0 0 5 (repoWorker (.ok "report")) "Draft the notes" "urgent" []).1.tasksAssigned
        = demoCEO2.tasksAssigned + 1 :=
  invalid_priority_no_validation demoCEO2 "task-8" 0 0 5 "report" "Draft the notes" "urgent" []
    demoBrand (by decide) (by decide) (by decide) (by rfl)

/-- C10 (confirmed).  For every priority string outside the recognized
set, `calculateDeadline` silently falls back to the twenty-four-hour
medium offset, and `assignTask` still creates, assigns and executes the
task: the history gains a record carrying that priority and the worker's
successful result. -/
theorem invalid_priority_deadline_fallback (st : CEOState) (id : String) (t0 t1 t2 : Int)
    (text d p : String) (sk : List String) (agent : AgentState)
    (hp1 : p ≠ "high") (hp2 : p ≠ "medium") (hp3 : p ≠ "low")
    (hsel : selectBestAgent st.teamAgents sk d = .ok (some agent)) :
    calculateDeadline t1 p = t1 + 24 * 60 * 60 * 1000
    ∧ ∃ t : Task,
        (assignTask st id t0 t1 t2 (repoWorker (.ok text)) d p sk).1.taskHistory
            = st.taskHistory ++ [t]
        ∧ t.id = id ∧ t.priority = p ∧ t.status = "completed"
        ∧ t.result = some { success := true, result := some text, error := none
                            agent := agent.name, taskId := id } := by
  constructor
  · have e1 : (p == "high") = false := beq_eq_false_iff_ne.mpr hp1
    have e2 : (p == "medium") = false := beq_eq_false_iff_ne.mpr hp2
    have e3 : (p == "low") = false := beq_eq_false_iff_ne.mpr hp3
    unfold calculateDeadline
    simp [e1, e2, e3]
  · refine ⟨{ id := id, description := d, priority := p, requiredSkills := sk
              assignedAgent := agent.name, assignedAt := t0, status := "completed"
              progress := 100, completedAt := some t2
              result := some { success := true, result := some text, error := none
                               agent := agent.name, taskId := id }
              error := none }, ?_, rfl, rfl, rfl, rfl⟩
    simp only [assignTask, hsel, repoWorker, processTask]
    rfl

theorem invalid_priority_deadline_fallback_witness :
    calculateDeadline 10 "critical" = 10 + 24 * 60 * 60 * 1000
    ∧ ∃ t : Task,
        (assignTask demoCEO2 "task-9" 0 10 5 (repoWorker (.ok "memo")) "Summarize" "critical" []).1.taskHistory
            = demoCEO2.taskHistory ++ [t]
        ∧ t.id = "task-9" ∧ t.priority = "critical" ∧ t.status = "completed"
        ∧ t.result = some { success := true, result := some "memo", error := none
                            agent := demoBrand.name, taskId := "task-9" } :=
  invalid_priority_deadline_fallback demoCEO2 "task-9" 0 10 5 "memo" "Summarize" "critical" []
    demoBrand (by decide) (by decide) (by decide) (by rfl)

/-! ### Metrics freshness: the values recomputed purely from history. -/

/-- The success rate the specification derives from history: completed
entries over all entries, as a percentage, zero on empty history. -/
def recomputedSuccessRate (hist : List Task) : Rat :=
  if hist.length > 0 then
    (((hist.filter (fun t => t.status == "completed")).length : Rat) / (hist.length : Rat)) * 100
  else 0

/-- The mean completion time (minutes) the specification derives from
history: mean of completion minus assignment over completed entries,
zero when none are completed. -/
def recomputedAvg (hist : List Task) : Rat :=
  let c := hist.filter (fun t => t.status == "completed")
  if c.length > 0 then
    ((completedTotalTime c : Rat) / (c.length : Rat)) / (1000 * 60)
  else 0

theorem upm_successRate (st : CEOState) :
    (updatePerformanceMetrics st).successRate = recomputedSuccessRate st.taskHistory := rfl

theorem upm_avg (st : CEOState) :
    (updatePerformanceMetrics st).averageCompletionTime
      = if (st.taskHistory.filter (fun t => t.status == "completed")).length > 0 then
          recomputedAvg st.taskHistory
        else st.averageCompletionTime := by
  by_cases h : (st.taskHistory.filter (fun t => t.status == "completed")).length > 0
  · simp [updatePerformanceMetrics, recomputedAvg, h]
  · simp [updatePerformanceMetrics, recomputedAvg, h]

/-- Appending one task preserves the freshness of the stored mean
completion time across the recomputation. -/
theorem avg_fresh_after_append (st2 : CEOState) (pre : List Task) (t : Task)
    (hh : st2.taskHistory = pre ++ [t])
    (ha : st2.averageCompletionTime = recomputedAvg pre) :
    (updatePerformanceMetrics st2).averageCompletionTime = recomputedAvg st2.taskHistory := by
  rw [upm_avg, hh, ha]
  by_cases h : (((pre ++ [t]).filter (fun u => u.status == "completed")).length > 0)
  · rw [if_pos h]
  · rw [if_neg h]
    have h0 : ((pre ++ [t]).filter (fun u => u.status == "completed")).length = 0 := by omega
    rw [List.filter_append, List.length_append] at h0
    have h1 : (pre.filter (fun u => u.status == "completed")).length = 0 := by omega
    have h2 : ((pre ++ [t]).filter (fun u => u.status == "completed")).length = 0 := by omega
    have h3 : (([t]).filter (fun u => u.status == "completed")).length = 0 := by omega
    simp [recomputedAvg, h1, h2, h3]

/-- C4 (corrected, amended claim).  After a terminal transition in which
the worker call returns (a success or a failure result), the stored
metrics equal the values recomputed purely from history; the amended
claim drops the path where the worker call throws, on which the catch
block of `assignTask` skips `updatePerformanceMetrics` and leaves the
stored metrics stale. -/
theorem metrics_recomputed_when_worker_returns (st : CEOState) (id : String) (t0 t1 t2 : Int)
    (svc : Except String String) (d p : String) (sk : List String) (agent : AgentState)
    (hsel : selectBestAgent st.teamAgents sk d = .ok (some agent))
    (havg : st.averageCompletionTime = recomputedAvg st.taskHistory) :
    ((assignTask st id t0 t1 t2 (repoWorker svc) d p sk).1.successRate
        = recomputedSuccessRate (assignTask st id t0 t1 t2 (repoWorker svc) d p sk).1.taskHistory)
    ∧ ((assignTask st id t0 t1 t2 (repoWorker svc) d p sk).1.averageCompletionTime
        = recomputedAvg (assignTask st id t0 t1 t2 (repoWorker svc) d p sk).1.taskHistory) := by
  cases svc with
  | ok text =>
      simp only [assignTask, hsel, repoWorker, processTask]
      constructor
      · rw [upm_successRate, upm_taskHistory]
      · exact avg_fresh_after_append _ st.taskHistory _ rfl havg
  | error e =>
      simp only [assignTask, hsel, repoWorker, processTask]
      constructor
      · rw [upm_successRate, upm_taskHistory]
      · exact avg_fresh_after_append _ st.taskHistory _ rfl havg

theorem metrics_recomputed_when_worker_returns_witness :
    ((assignTask demoCEO "task-w4" 0 0 7 (repoWorker (.ok "text")) "Check the metrics" "high" []).1.successRate
        = recomputedSuccessRate
            (assignTask demoCEO "task-w4" 0 0 7 (repoWorker (.ok "text")) "Check the metrics" "high" []).1.taskHistory)
    ∧ ((assignTask demoCEO "task-w4" 0 0 7 (repoWorker (.ok "text")) "Check the metrics" "high" []).1.averageCompletionTime
        = recomputedAvg
            (assignTask demoCEO "task-w4" 0 0 7 (repoWorker (.ok "text")) "Check the metrics" "high" []).1.taskHistory) :=
  metrics_recomputed_when_worker_returns demoCEO "task-w4" 0 0 7 (.ok "text")
    "Check the metrics" "high" [] demoSEO (by rfl) (by rfl)

/-- A coordinator with a single registered worker, for the staleness
counterexample. -/
def staleCEO0 : CEOState :=
  { initCEO with teamAgents := [mkAgent "worker-A" "Market_Analyst" []] }

/-- A registered worker object whose task call throws, exercising the
catch block of `assignTask` (the path the original claim includes). -/
def throwingWorker : WorkerCall :=
  fun a _ _ _ => (a, .error "boom")

/-- State after one successful submit. -/
def staleCEO1 : CEOState :=
  (assignTask staleCEO0 "t1" 0 0 60000 (repoWorker (.ok "result-1")) "first task" "high" []).1

/-- State after a second submit whose worker call throws. -/
def staleCEO2 : CEOState :=
  (assignTask staleCEO1 "t2" 0 0 0 throwingWorker "second task" "high" []).1

/-- Counterexample to C4 as stated: after the terminal transition of the
second task (worker call throws), the stored success rate still reads
one hundred while the value recomputed from the two-entry history is
fifty - the catch path never calls `updatePerformanceMetrics`. -/
theorem metrics_stale_after_worker_throw_cex :
    staleCEO2.successRate = 100
    ∧ recomputedSuccessRate staleCEO2.taskHistory = 50
    ∧ staleCEO2.successRate ≠ recomputedSuccessRate staleCEO2.taskHistory := by
  have e1 : staleCEO2.successRate = recomputedSuccessRate staleCEO1.taskHistory := rfl
  have l1 : staleCEO1.taskHistory.length = 1 := by decide
  have l2 : (staleCEO1.taskHistory.filter (fun t => t.status == "completed")).length = 1 := by
    decide
  have l3 : staleCEO2.taskHistory.length = 2 := by decide
  have l4 : (staleCEO2.taskHistory.filter (fun t => t.status == "completed")).length = 1 := by
    decide
  have e2 : recomputedSuccessRate staleCEO1.taskHistory = 100 := by
    simp only [recomputedSuccessRate, l1, l2]
    norm_num
  have e3 : recomputedSuccessRate staleCEO2.taskHistory = 50 := by
    simp only [recomputedSuccessRate, l3, l4]
    norm_num
  refine ⟨e1.trans e2, e3, ?_⟩
  rw [e1, e2, e3]
  norm_num

/-! ### Ledger membership lemmas for the exactly-one-place invariant. -/

theorem any_false_forall {α : Type} (p : α → Bool) (l : List α) (h : l.any p = false) :
    ∀ x ∈ l, p x = false := by
  intro x hx
  cases hpx : p x with
  | false => rfl
  | true =>
      have : l.any p = true := List.any_eq_true.mpr ⟨x, hx, hpx⟩
      rw [h] at this
      exact Bool.noConfusion this

theorem any_filter_not_id (m : List Task) (id : String) :
    (m.filter (fun u => !(u.id == id))).any (fun t => t.id == id) = false := by
  induction m with
  | nil => rfl
  | cons x xs ih =>
      cases hx : (x.id == id) <;>
        simp [List.filter_cons, hx, List.any_cons, ih]

theorem taskMapDelete_self_any (m : List Task) (id : String) :
    (taskMapDelete m id).any (fun t => t.id == id) = false :=
  any_filter_not_id m id

theorem any_map_replace (m : List Task) (t : Task) (id : String)
    (hm : m.any (fun u => u.id == id) = false) (ht : (t.id == id) = false) :
    ((m.map (fun u => if u.id == t.id then t else u)).any (fun u => u.id == id)) = false := by
  induction m with
  | nil => rfl
  | cons x xs ih =>
      rcases Bool.or_eq_false_iff.mp hm with ⟨hx, hxs⟩
      simp only [List.map_cons, List.any_cons, ih hxs, Bool.or_false]
      split
      · exact ht
      · exact hx

theorem taskMapSet_any_false (m : List Task) (t : Task) (id : String)
    (hm : m.any (fun u => u.id == id) = false) (ht : (t.id == id) = false) :
    (taskMapSet m t).any (fun u => u.id == id) = false := by
  unfold taskMapSet
  split
  · exact any_map_replace m t id hm ht
  · simp [List.any_append, List.any_cons, hm, ht]

theorem any_false_filter {p q : Task → Bool} (m : List Task) (hm : m.any p = false) :
    (m.filter q).any p = false := by
  induction m with
  | nil => rfl
  | cons x xs ih =>
      rcases Bool.or_eq_false_iff.mp hm with ⟨hx, hxs⟩
      cases hq : q x with
      | true => simp [List.filter_cons, hq, List.any_cons, hx, ih hxs]
      | false => simp [List.filter_cons, hq, ih hxs]

/-- In every branch, the ledger after `assignTask` is either untouched
(thrown selection, unreachable no-agent branch) or the submitted id went
through set, terminal write, delete and history append. -/
theorem assignTask_ledger (st : CEOState) (id' : String) (t0 t1 t2 : Int) (call : WorkerCall)
    (d p : String) (sk : List String) :
    ((assignTask st id' t0 t1 t2 call d p sk).1.activeTasks = st.activeTasks
      ∧ (assignTask st id' t0 t1 t2 call d p sk).1.taskHistory = st.taskHistory)
    ∨ (∃ taskA task1 : Task, taskA.id = id' ∧ task1.id = id'
        ∧ (assignTask st id' t0 t1 t2 call d p sk).1.activeTasks
            = taskMapDelete (taskMapSet st.activeTasks taskA) id'
        ∧ (assignTask st id' t0 t1 t2 call d p sk).1.taskHistory
            = st.taskHistory ++ [task1]) := by
  cases hsel : selectBestAgent st.teamAgents sk d with
  | error e =>
      left
      simp only [assignTask, hsel]
      exact ⟨by trivial, by trivial⟩
  | ok oa =>
      cases oa with
      | none =>
          left
          simp only [assignTask, hsel]
          exact ⟨by trivial, by trivial⟩
      | some agent =>
          right
          simp only [assignTask, hsel]
          rcases hcall : call agent id' d
              ⟨p, "lil_Boss_CEO", calculateDeadline t1 p⟩ with ⟨a1, cr⟩
          cases cr with
          | ok result => exact ⟨_, _, rfl, rfl, rfl, rfl⟩
          | error e => exact ⟨_, _, rfl, rfl, rfl, rfl⟩

theorem assignTask_pres (st : CEOState) (id id' : String) (t0 t1 t2 : Int) (call : WorkerCall)
    (d p : String) (sk : List String) (hne : id' ≠ id) :
    (activeHas st id = false → activeHas (assignTask st id' t0 t1 t2 call d p sk).1 id = false)
    ∧ (historyHas st id = true → historyHas (assignTask st id' t0 t1 t2 call d p sk).1 id = true) := by
  rcases assignTask_ledger st id' t0 t1 t2 call d p sk with
    ⟨ha, hh⟩ | ⟨taskA, task1, hA, h1, ha, hh⟩
  · constructor
    · intro h
      simp only [activeHas, ha]
      exact h
    · intro h
      simp only [historyHas, hh]
      exact h
  · constructor
    · intro h
      simp only [activeHas, ha, taskMapDelete]
      apply any_false_filter
      apply taskMapSet_any_false _ _ _ h
      rw [hA]
      exact beq_eq_false_iff_ne.mpr hne
    · intro h
      simp only [historyHas, hh, List.any_append]
      simp only [historyHas] at h
      rw [h]
      rfl

theorem aggregateResults_fst (st : CEOState) (ids : List String) (k : String)
    (svc : Except String String) (aid : String) :
    (aggregateResults st ids k svc aid).1 = st := by
  simp only [aggregateResults]
  split
  · rfl
  · split <;> rfl

theorem step_pres (id : String) (st : CEOState) (op : Op) (hf : opFresh id op) :
    (activeHas st id = false → activeHas (step st op) id = false)
    ∧ (historyHas st id = true → historyHas (step st op) id = true) := by
  cases op with
  | register a => exact ⟨fun h => h, fun h => h⟩
  | submit id' t0 t1 t2 call d p sk =>
      exact assignTask_pres st id id' t0 t1 t2 call d p sk hf
  | aggregate ids k svc aid =>
      simp only [step, aggregateResults_fst]
      exact ⟨fun h => h, fun h => h⟩

theorem run_pres (id : String) (ops : List Op) (hf : ∀ op ∈ ops, opFresh id op) :
    ∀ st : CEOState, activeHas st id = false → historyHas st id = true →
      activeHas (run st ops) id = false ∧ historyHas (run st ops) id = true := by
  induction ops with
  | nil => intro st h1 h2; exact ⟨h1, h2⟩
  | cons op ops ih =>
      intro st h1 h2
      have hop := step_pres id st op (hf op (List.mem_cons_self op ops))
      exact ih (fun o ho => hf o (List.mem_cons_of_mem op ho)) (step st op) (hop.1 h1) (hop.2 h2)

theorem found_of_ledger (st : CEOState) (id : String)
    (h1 : activeHas st id = false) (h2 : historyHas st id = true) :
    (getTaskStatus st id).found = true := by
  unfold getTaskStatus
  have h1x : st.activeTasks.any (fun t => t.id == id) = false := h1
  have h2x : st.taskHistory.any (fun t => t.id == id) = true := h2
  have hf : st.activeTasks.find? (fun t => t.id == id) = none := by
    rw [List.find?_eq_none]
    intro x hx
    have := any_false_forall (fun t => t.id == id) st.activeTasks h1x x hx
    simp [this]
  rw [hf]
  have hex : ∃ t ∈ st.taskHistory, (t.id == id) = true := List.any_eq_true.mp h2x
  have hsome : (st.taskHistory.find? (fun t => t.id == id)).isSome := by
    rw [List.find?_isSome]
    exact hex
  obtain ⟨t, hfind⟩ := Option.isSome_iff_exists.mp hsome
  rw [hfind]

/-- C5 (confirmed).  Every task id actually returned by `assignTask`
(on the reachable paths, a submit that returns always returns the id)
ends in exactly one ledger - the history, not the active set - remains
there under every later operation that does not reuse the id, and stays
retrievable through `getTaskStatus` forever. -/
theorem task_id_persistent_exactly_one (st st' : CEOState) (r : SubmitResult)
    (id : String) (t0 t1 t2 : Int) (call : WorkerCall) (d p : String) (sk : List String)
    (h : assignTask st id t0 t1 t2 call d p sk = (st', .ok r)) :
    r.taskId = some id
    ∧ activeHas st' id = false
    ∧ historyHas st' id = true
    ∧ (getTaskStatus st' id).found = true
    ∧ ∀ ops : List Op, (∀ op ∈ ops, opFresh id op) →
        activeHas (run st' ops) id = false
        ∧ historyHas (run st' ops) id = true
        ∧ (getTaskStatus (run st' ops) id).found = true := by
  have base : r.taskId = some id ∧ activeHas st' id = false ∧ historyHas st' id = true := by
    cases hsel : selectBestAgent st.teamAgents sk d with
    | error e =>
        simp only [assignTask, hsel] at h
        injection h with hA hB
        exact Except.noConfusion hB
    | ok oa =>
        cases oa with
        | none => exact absurd hsel (selectBestAgent_ne_ok_none st.teamAgents sk d)
        | some agent =>
            simp only [assignTask, hsel] at h
            rcases hcall : call agent id d
                ⟨p, "lil_Boss_CEO", calculateDeadline t1 p⟩ with ⟨a1, cr⟩
            rw [hcall] at h
            cases cr with
            | ok result =>
                injection h with hst hr
                injection hr with hr
                subst hst
                refine ⟨by rw [← hr], ?_, ?_⟩
                · simp only [activeHas, upm_activeTasks]
                  exact taskMapDelete_self_any _ id
                · simp only [historyHas, upm_taskHistory, List.any_append, List.any_cons,
                    List.any_nil, beq_self_eq_true, Bool.or_true, Bool.true_or, Bool.or_false]
            | error e =>
                injection h with hst hr
                injection hr with hr
                subst hst
                refine ⟨by rw [← hr], ?_, ?_⟩
                · simp only [activeHas]
                  exact taskMapDelete_self_any _ id
                · simp only [historyHas, List.any_append, List.any_cons,
                    List.any_nil, beq_self_eq_true, Bool.or_true, Bool.true_or, Bool.or_false]
  obtain ⟨hr, hact, hhist⟩ := base
  refine ⟨hr, hact, hhist, found_of_ledger st' id hact hhist, ?_⟩
  intro ops hf
  obtain ⟨ha2, hh2⟩ := run_pres id ops hf st' hact hhist
  exact ⟨ha2, hh2, found_of_ledger _ id ha2 hh2⟩

/-- Coordinator state after the witness submit. -/
def persistCEO : CEOState :=
  (assignTask demoCEO "task-w5" 0 0 3 (repoWorker (.ok "out")) "Survey results" "high" []).1

theorem task_id_persistent_exactly_one_witness :
    activeHas persistCEO "task-w5" = false
    ∧ historyHas persistCEO "task-w5" = true
    ∧ (getTaskStatus persistCEO "task-w5").found = true
    ∧ (activeHas (run persistCEO [Op.register demoBrand]) "task-w5" = false
       ∧ historyHas (run persistCEO [Op.register demoBrand]) "task-w5" = true
       ∧ (getTaskStatus (run persistCEO [Op.register demoBrand]) "task-w5").found = true) := by
  have H := task_id_persistent_exactly_one demoCEO persistCEO
    { success := true, taskId := some "task-w5", assignedAgent := some "lil_SEO_Specialist"
      result := some "out", error := none }
    "task-w5" 0 0 3 (repoWorker (.ok "out")) "Survey results" "high" [] (by rfl)
  exact ⟨H.2.1, H.2.2.1, H.2.2.2.1,
    H.2.2.2.2 [Op.register demoBrand] (by intro op hop; rcases List.mem_singleton.mp hop with rfl; trivial)⟩

/-! ### System health. -/

/-- C8 (confirmed).  With at least one registered worker and a
nonnegative stored success rate, `calculateSystemHealth` returns the
rounded sum of fifty times the idle fraction and the capped half success
rate, and the result always lies between zero and one hundred. -/
theorem system_health_formula_bounds (st : CEOState)
    (h1 : 0 < st.teamAgents.length) (h2 : 0 ≤ st.successRate) :
    calculateSystemHealth st
        = jsRound (50 * (((st.teamAgents.filter (fun a => a.status == "idle")).length : Rat)
            / (st.teamAgents.length : Rat)) + min (st.successRate / 2) 50)
    ∧ 0 ≤ calculateSystemHealth st
    ∧ calculateSystemHealth st ≤ 100 := by
  have hEq : calculateSystemHealth st
      = jsRound ((((st.teamAgents.filter (fun a => a.status == "idle")).length : Rat)
          / (st.teamAgents.length : Rat)) * 50 + min (st.successRate / 2) 50) := by
    simp only [calculateSystemHealth]
    rw [if_pos h1]
  have hcomm : (((st.teamAgents.filter (fun a => a.status == "idle")).length : Rat)
        / (st.teamAgents.length : Rat)) * 50 + min (st.successRate / 2) 50
      = 50 * (((st.teamAgents.filter (fun a => a.status == "idle")).length : Rat)
        / (st.teamAgents.length : Rat)) + min (st.successRate / 2) 50 := by
    ring
  have hin : (((st.teamAgents.filter (fun a => a.status == "idle")).length : Rat))
      ≤ ((st.teamAgents.length : Rat)) := by
    exact_mod_cast List.length_filter_le _ _
  have hn0 : (0 : Rat) < (st.teamAgents.length : Rat) := by exact_mod_cast h1
  have havail0 : (0 : Rat)
      ≤ (((st.teamAgents.filter (fun a => a.status == "idle")).length : Rat)
          / (st.teamAgents.length : Rat)) * 50 := by positivity
  have hdiv1 : (((st.teamAgents.filter (fun a => a.status == "idle")).length : Rat)
      / (st.teamAgents.length : Rat)) ≤ 1 := (div_le_one hn0).mpr hin
  have havail50 : (((st.teamAgents.filter (fun a => a.status == "idle")).length : Rat)
      / (st.teamAgents.length : Rat)) * 50 ≤ 50 := by nlinarith
  have hperf0 : (0 : Rat) ≤ min (st.successRate / 2) 50 :=
    le_min (by positivity) (by norm_num)
  have hperf50 : min (st.successRate / 2) 50 ≤ 50 := min_le_right _ _
  have hlow : 0 ≤ calculateSystemHealth st := by
    rw [hEq]
    unfold jsRound
    apply Int.le_floor.mpr
    push_cast
    linarith
  have hhigh : calculateSystemHealth st ≤ 100 := by
    rw [hEq]
    unfold jsRound
    have : ⌊(((st.teamAgents.filter (fun a => a.status == "idle")).length : Rat)
        / (st.teamAgents.length : Rat)) * 50 + min (st.successRate / 2) 50 + 1 / 2⌋ < 101 := by
      apply Int.floor_lt.mpr
      push_cast
      linarith
    omega
  exact ⟨by rw [hEq, hcomm], hlow, hhigh⟩

/-- A snapshot with four workers, two idle, and a stored success rate of
eighty percent. -/
def demoC8 : CEOState :=
  { initCEO with
    teamAgents := [mkAgent "a1" "CEO" [], mkAgent "a2" "CEO" [],
      { mkAgent "a3" "CEO" [] with status := "busy" },
      { mkAgent "a4" "CEO" [] with status := "busy" }]
    successRate := 80 }

theorem system_health_formula_bounds_witness :
    calculateSystemHealth demoC8 = 65
    ∧ 0 ≤ calculateSystemHealth demoC8
    ∧ calculateSystemHealth demoC8 ≤ 100 := by
  have hsr : demoC8.successRate = 80 := rfl
  have H := system_health_formula_bounds demoC8 (by decide) (by rw [hsr]; norm_num)
  refine ⟨?_, H.2.1, H.2.2⟩
  rw [H.1]
  have hfil : ((demoC8.teamAgents.filter (fun a => a.status == "idle")).length) = 2 := by decide
  have hlen : demoC8.teamAgents.length = 4 := by decide
  rw [hfil, hlen, hsr]
  have hmin : min ((80 : Rat) / 2) 50 = 40 := by norm_num
  unfold jsRound
  rw [hmin]
  rw [Int.floor_eq_iff]
  norm_num

/-! ### Aggregation. -/

/-- A history entry under the given id whose result succeeded - the
records `aggregateResults` is specified to collect. -/
def succHistEntry (st : CEOState) (id : String) : Prop :=
  ∃ t ∈ st.taskHistory, t.id = id ∧ t.status = "completed"
    ∧ ∃ ar, t.result = some ar ∧ ar.success = true

theorem find?_pred {α : Type} (p : α → Bool) (l : List α) (a : α)
    (h : l.find? p = some a) : p a = true := by
  induction l with
  | nil => simp [List.find?] at h
  | cons x xs ih =>
      rw [List.find?] at h
      cases hx : p x with
      | true =>
          rw [hx] at h
          injection h with h
          subst h
          exact hx
      | false =>
          rw [hx] at h
          exact ih h

theorem aggCompleted_nil (st : CEOState) (ids : List String)
    (hact : ∀ t ∈ st.activeTasks, t.status = "assigned")
    (hno : ∀ id ∈ ids, ¬ succHistEntry st id) :
    aggCompleted st ids = [] := by
  unfold aggCompleted
  rw [List.filter_eq_nil_iff]
  intro r hr
  unfold aggFoundTasks at hr
  rw [List.mem_filter] at hr
  obtain ⟨hmap, hfound⟩ := hr
  rw [List.mem_map] at hmap
  obtain ⟨id, hid, hgts⟩ := hmap
  subst hgts
  cases hfa : st.activeTasks.find? (fun t => t.id == id) with
  | some t =>
      have hgts : getTaskStatus st id
          = { found := true, status := some t.status, task := some t, error := none } := by
        unfold getTaskStatus; rw [hfa]
      rw [hgts]
      have hstat := hact t (List.mem_of_find?_eq_some hfa)
      simp [statusSuccessful, hstat]
  | none =>
      cases hfh : st.taskHistory.find? (fun t => t.id == id) with
      | some t =>
          have hgts : getTaskStatus st id
              = { found := true, status := some t.status, task := some t, error := none } := by
            unfold getTaskStatus; rw [hfa, hfh]
          rw [hgts]
          have hmem := List.mem_of_find?_eq_some hfh
          have hp : (fun u : Task => u.id == id) t = true :=
            find?_pred (fun u : Task => u.id == id) st.taskHistory t hfh
          have hidt : t.id = id := eq_of_beq hp
          intro hss
          apply hno id hid
          simp only [statusSuccessful] at hss
          rw [Bool.and_eq_true] at hss
          obtain ⟨hs1, hs2⟩ := hss
          have hst : t.status = "completed" := by
            have h := eq_of_beq hs1
            exact Option.some.inj h
          cases hres : t.result with
          | none =>
              rw [hres] at hs2
              exact Bool.noConfusion hs2
          | some ar =>
              rw [hres] at hs2
              exact ⟨t, hmem, hidt, hst, ar, hres, hs2⟩
      | none =>
          have hgts : getTaskStatus st id
              = { found := false, status := none, task := none, error := some "Task not found" } := by
            unfold getTaskStatus; rw [hfa, hfh]
          rw [hgts] at hfound
          exact Bool.noConfusion hfound

/-- C9 (confirmed).  When no requested id denotes a successful history
entry, `aggregateResults` fails with the no-completed-tasks error and
performs no completion-service call (invocation count zero); when the
filtered set is non-empty and the synthesis call succeeds, it returns
the synthesized text together with the first-occurrence-deduplicated
list of contributing worker names.  The active-ledger hypothesis holds
in every reachable state (active records carry status assigned). -/
theorem aggregate_no_completed_and_dedup (st : CEOState) (ids : List String) (k : String)
    (svc : Except String String) (aid : String) :
    ((∀ t ∈ st.activeTasks, t.status = "assigned") →
      (∀ id ∈ ids, ¬ succHistEntry st id) →
      aggregateResults st ids k svc aid
        = (st, { success := false, aggregated_result := none, source_tasks := []
                 agents_involved := [], aggregation_type := none
                 error := some "No completed tasks found for aggregation" }, 0))
    ∧ (∀ text : String, aggCompleted st ids ≠ [] → svc = .ok text →
        aggregateResults st ids k svc aid
          = (st, { success := true, aggregated_result := some text, source_tasks := ids
                   agents_involved := dedupFirst ((aggCompleted st ids).map
                       (fun r => ((r.task.map Task.assignedAgent).getD "")))
                   aggregation_type := some k, error := none }, 1)) := by
  constructor
  · intro hact hno
    have hnil := aggCompleted_nil st ids hact hno
    simp only [aggregateResults, hnil]
    rfl
  · intro text hne hsvc
    subst hsvc
    have hlen : ((aggCompleted st ids).length == 0) = false := by
      rw [beq_eq_false_iff_ne]
      intro h
      exact hne (List.length_eq_zero.mp h)
    simp only [aggregateResults, hlen, Bool.false_eq_true, if_false, processTask]

theorem aggregate_no_completed_and_dedup_witness :
    aggregateResults initCEO ["nothing"] "summary" (.ok "synth") "agg-1"
      = (initCEO, { success := false, aggregated_result := none, source_tasks := []
                    agents_involved := [], aggregation_type := none
                    error := some "No completed tasks found for aggregation" }, 0)
    ∧ aggregateResults persistCEO ["task-w5"] "summary" (.ok "synth") "agg-2"
      = (persistCEO, { success := true, aggregated_result := some "synth"
                       source_tasks := ["task-w5"]
                       agents_involved := dedupFirst ((aggCompleted persistCEO ["task-w5"]).map
                           (fun r => ((r.task.map Task.assignedAgent).getD "")))
                       aggregation_type := some "summary", error := none }, 1)
    ∧ dedupFirst ((aggCompleted persistCEO ["task-w5"]).map
        (fun r => ((r.task.map Task.assignedAgent).getD ""))) = ["lil_SEO_Specialist"] := by
  refine ⟨?_, ?_, by decide⟩
  · exact (aggregate_no_completed_and_dedup initCEO ["nothing"] "summary" (.ok "synth") "agg-1").1
      (fun t ht => absurd ht (List.not_mem_nil t))
      (by intro id hid; simp [succHistEntry, initCEO])
  · exact (aggregate_no_completed_and_dedup persistCEO ["task-w5"] "summary"
      (.ok "synth") "agg-2").2 "synth" (by decide) rfl

end Lilcl
